import Mathlib

/-!
Verification of the competitor discovery and storage pipeline of the
warrensiro/Scraping repository.

The Python modules `src/db.py`, `src/oxylabs_client.py` and `src/services.py`
are shallowly embedded here.  Python values flowing through the pipeline are
dynamically typed dictionaries, so we model them with a small inductive type
`Value` of JSON-like values and association lists for dictionaries, together
with Python truthiness, `dict.get`, `dict.update`, `dict.setdefault` and the
`or` operator on values.  The external HTTP API (`_post_query`) is modelled as
an oracle parameter mapping a request payload to either a response value or a
transport failure.  Python `list(set(...))` has an unspecified, hash-dependent
iteration order; it is modelled by an arbitrary choice function constrained by
the predicate `PySetChoice` (the output is duplicate-free and has exactly the
elements of the input).
-/

namespace Scraping

/-- A dynamically typed Python value as used by the pipeline: `None`, booleans,
numbers, strings, lists, and string-keyed dictionaries. -/
inductive Value where
  | vnull : Value
  | vbool (b : Bool) : Value
  | vnum (n : Int) : Value
  | vstr (s : String) : Value
  | vlist (l : List Value) : Value
  | vdict (l : List (String × Value)) : Value

/-- Structural (Python `==`) equality test on values. -/
def Value.beq : Value → Value → Bool
  | .vnull, .vnull => true
  | .vbool a, .vbool b => a == b
  | .vnum a, .vnum b => a == b
  | .vstr a, .vstr b => a == b
  | .vlist a, .vlist b => beqList a b
  | .vdict a, .vdict b => beqDict a b
  | _, _ => false
where
  beqList : List Value → List Value → Bool
    | [], [] => true
    | x :: xs, y :: ys => Value.beq x y && beqList xs ys
    | _, _ => false
  beqDict : List (String × Value) → List (String × Value) → Bool
    | [], [] => true
    | (k, v) :: xs, (k2, v2) :: ys => k == k2 && Value.beq v v2 && beqDict xs ys
    | _, _ => false

mutual

theorem Value.beq_refl : ∀ a : Value, Value.beq a a = true
  | .vnull => rfl
  | .vbool b => by simp [Value.beq]
  | .vnum n => by simp [Value.beq]
  | .vstr s => by simp [Value.beq]
  | .vlist l => by simp only [Value.beq]; exact Value.beqList_refl l
  | .vdict l => by simp only [Value.beq]; exact Value.beqDict_refl l

theorem Value.beqList_refl : ∀ l : List Value, Value.beq.beqList l l = true
  | [] => rfl
  | x :: xs => by
      simp only [Value.beq.beqList, Bool.and_eq_true]
      exact ⟨Value.beq_refl x, Value.beqList_refl xs⟩

theorem Value.beqDict_refl : ∀ l : List (String × Value), Value.beq.beqDict l l = true
  | [] => rfl
  | (k, v) :: xs => by
      simp only [Value.beq.beqDict, Bool.and_eq_true]
      exact ⟨⟨by simp, Value.beq_refl v⟩, Value.beqDict_refl xs⟩

end

mutual

theorem Value.eq_of_beq : ∀ {a b : Value}, Value.beq a b = true → a = b
  | .vnull, .vnull, _ => rfl
  | .vbool a, .vbool b, h => by simpa [Value.beq] using h
  | .vnum a, .vnum b, h => by simp only [Value.beq] at h; simpa using h
  | .vstr a, .vstr b, h => by simp only [Value.beq] at h; simpa using h
  | .vlist a, .vlist b, h => by
      simp only [Value.beq] at h
      exact congrArg Value.vlist (Value.eqList_of_beq h)
  | .vdict a, .vdict b, h => by
      simp only [Value.beq] at h
      exact congrArg Value.vdict (Value.eqDict_of_beq h)

theorem Value.eqList_of_beq : ∀ {a b : List Value}, Value.beq.beqList a b = true → a = b
  | [], [], _ => rfl
  | x :: xs, y :: ys, h => by
      simp only [Value.beq.beqList, Bool.and_eq_true] at h
      rw [Value.eq_of_beq h.1, Value.eqList_of_beq h.2]

theorem Value.eqDict_of_beq :
    ∀ {a b : List (String × Value)}, Value.beq.beqDict a b = true → a = b
  | [], [], _ => rfl
  | (k, v) :: xs, (k2, v2) :: ys, h => by
      simp only [Value.beq.beqDict, Bool.and_eq_true] at h
      obtain ⟨⟨hk, hv⟩, ht⟩ := h
      have hk2 : k = k2 := by simpa using hk
      rw [Value.eq_of_beq hv, Value.eqDict_of_beq ht, hk2]

end

instance : DecidableEq Value := fun a b =>
  decidable_of_iff (Value.beq a b = true)
    ⟨Value.eq_of_beq, fun h => h ▸ Value.beq_refl a⟩

/-- A Python dictionary with string keys, in insertion order. -/
abbrev Dict := List (String × Value)

/-- `d.get(k)`: `some v` when the key is present (even with value `None`),
`none` when the key is absent. -/
def dget : Dict → String → Option Value
  | [], _ => none
  | (k, v) :: rest, key => if k = key then some v else dget rest key

/-- `d[k] = v`: overwrite an existing key in place, else append (Python dicts
keep insertion order and never hold a key twice). -/
def dset : Dict → String → Value → Dict
  | [], key, v => [(key, v)]
  | (k, w) :: rest, key, v =>
    if k = key then (key, v) :: rest else (k, w) :: dset rest key v

/-- `d.setdefault(k, v)`: insert only when the key is absent (a key holding
`None` counts as present). -/
def dsetdefault (d : Dict) (key : String) (v : Value) : Dict :=
  if (dget d key).isSome then d else d ++ [(key, v)]

/-- `d.update(e)`: set every key of `e` in `d`, in order. -/
def dupdate (d e : Dict) : Dict :=
  e.foldl (fun acc kv => dset acc kv.1 kv.2) d

/-- Python truthiness of a value (`bool(v)`). -/
def vtruthy : Value → Bool
  | .vnull => false
  | .vbool b => b
  | .vnum n => n != 0
  | .vstr s => s != ""
  | .vlist l => !l.isEmpty
  | .vdict l => !l.isEmpty

/-- `d.get(k)` as a value: Python returns `None` when the key is absent. -/
def getV (d : Dict) (key : String) : Value :=
  (dget d key).getD .vnull

/-- Attribute access `v.get(k)` on a value expected to be a dictionary;
non-dictionaries yield `None` (the Python code would raise there, which no
claim exercises). -/
def vget (v : Value) (key : String) : Value :=
  match v with
  | .vdict d => getV d key
  | _ => .vnull

/-- The Python `or` operator on two values: the first when truthy, else the
second. -/
def pyOr (a b : Value) : Value :=
  if vtruthy a then a else b

/-- An optional string argument (`Optional[str] = None`) as a value. -/
def optV : Option String → Value
  | none => .vnull
  | some s => .vstr s

/-- `d.get(k, default)`. -/
def getVD (d : Dict) (key : String) (dflt : Value) : Value :=
  (dget d key).getD dflt

/-- `v.get(k, default)` on a value expected to be a dictionary. -/
def vgetD (v : Value) (key : String) (dflt : Value) : Value :=
  match v with
  | .vdict d => getVD d key dflt
  | _ => dflt

/-! ## src/oxylabs_client.py -/

/-- `MAX_RETRIES` (src/oxylabs_client.py line 13). -/
def MAX_RETRIES : Nat := 3

/-- `RETRY_BACKOFF = 1.5` (src/oxylabs_client.py line 14); `1.5 * attempt` is
exact in floating point for the attempt numbers used, so rationals model the
sleep durations faithfully. -/
def RETRY_BACKOFF : ℚ := 3 / 2

/-- Outcome of `_post_query`: a parsed response, a `requests.RequestException`
re-raised after the final attempt, or a `RuntimeError` (missing credentials, or
the unreachable guard after the loop). -/
inductive PostResult where
  | ok (v : Value)
  | transportError
  | runtimeError
  deriving DecidableEq

/-- The retry loop of `_post_query` (src/oxylabs_client.py lines 24-44) over
the remaining attempt numbers.  `attemptOk n` is the outcome the network
delivers on attempt `n` (`none` = `requests.RequestException`).  The second
component records the `time.sleep` durations performed, in order. -/
def post_query_go (attemptOk : Nat → Option Value) :
    List Nat → List ℚ → PostResult × List ℚ
  | [], sleeps => (.runtimeError, sleeps)
  | a :: rest, sleeps =>
    match attemptOk a with
    | some v => (.ok v, sleeps)
    | none =>
      if a = MAX_RETRIES then (.transportError, sleeps)
      else post_query_go attemptOk rest (sleeps ++ [RETRY_BACKOFF * a])

/-- `_post_query` (src/oxylabs_client.py lines 17-46): a missing credential
pair raises `RuntimeError` before any attempt; otherwise the request is tried
for `attempt in range(1, MAX_RETRIES + 1)` with `time.sleep(RETRY_BACKOFF *
attempt)` between failed attempts. -/
def post_query (credsConfigured : Bool) (attemptOk : Nat → Option Value) :
    PostResult × List ℚ :=
  if credsConfigured then post_query_go attemptOk (List.range' 1 MAX_RETRIES) []
  else (.runtimeError, [])

/-- `_extract_content` (src/oxylabs_client.py lines 49-59). -/
def extract_content (payload : Value) : Value :=
  match payload with
  | .vdict d =>
    match dget d "results" with
    | some (.vlist (first :: _)) =>
      match first with
      | .vdict fd => pyOr (getV fd "content") (.vdict [])
      | _ => pyOr (getV d "content") (.vdict [])
    | _ => pyOr (getV d "content") (.vdict [])
  | _ => .vdict []

/-- Python whitespace as stripped by `str.strip()`. -/
def isPySpace (c : Char) : Bool :=
  c == ' ' || c == Char.ofNat 9 || c == Char.ofNat 10 ||
    c == Char.ofNat 13 || c == Char.ofNat 11 || c == Char.ofNat 12

/-- `str.strip()` on the character list of a string. -/
def pyStripChars (s : List Char) : List Char :=
  ((s.dropWhile isPySpace).reverse.dropWhile isPySpace).reverse

/-- `str.strip()`. -/
def pyStrip (s : String) : String :=
  (pyStripChars s.toList).asString

/-- `_normalize_product` (src/oxylabs_client.py lines 96-117): the mapped
record carries every key listed in the source, in source order; a key the
content lacks maps to `None`. -/
def normalize_product (content : Value) : Dict :=
  let category_path :=
    match vgetD content "category_path" (.vlist []) with
    | .vlist l =>
      l.filterMap (fun c =>
        match c with
        | .vstr s => if pyStrip s != "" then some (Value.vstr (pyStrip s)) else none
        | _ => none)
    | _ => []
  [("asin", vget content "asin"),
   ("url", vget content "url"),
   ("brand", vget content "brand"),
   ("price", vget content "price"),
   ("stock", vget content "stock"),
   ("title", vget content "title"),
   ("rating", vget content "rating"),
   ("images", vget content "images"),
   ("categories", vgetD content "categories" (.vlist [])),
   ("category_path", .vlist category_path),
   ("currency", vget content "currency"),
   ("buybox", vgetD content "buybox" (.vlist [])),
   ("product_overview", vgetD content "product_overview" (.vlist []))]

/-- The request payload built by `scrape_product_details`
(src/oxylabs_client.py lines 70-78): `geo_location` is added exactly when the
argument is truthy — no storefront check is consulted. -/
def details_payload (asinV geoV domV : Value) : Dict :=
  let payload : Dict :=
    [("source", .vstr "amazon_product"), ("query", asinV),
     ("domain", domV), ("parse", .vbool true)]
  if vtruthy geoV then dset payload "geo_location" geoV else payload

/-- `scrape_product_details` (src/oxylabs_client.py lines 62-93), with the
network modelled by the oracle `post` (the observable behaviour of
`_post_query`: a response value or a raised transport/credential error).
Note `product.setdefault("asin", asin)` is a no-op on the output of
`_normalize_product`, which always carries an `asin` key (possibly `None`). -/
def scrape_product_details (post : Dict → Except Unit Value)
    (asinV geoV domV : Value) : Except Unit Dict :=
  match post (details_payload asinV geoV domV) with
  | .error e => .error e
  | .ok raw =>
    let content := extract_content raw
    let product := normalize_product content
    let product := dsetdefault product "asin" asinV
    .ok (dupdate product [("amazon_domain", domV), ("geo_location", pyOr geoV (.vstr ""))])

/-- `_clean_product_name` (src/oxylabs_client.py lines 196-200): for each of
the separators `"-"` then `"|"`, when the separator occurs in the title keep
only the part before its first occurrence; finally strip whitespace. -/
def clean_product_name (title : String) : String :=
  let cut := [Char.ofNat 45, Char.ofNat 124].foldl
    (fun t sep => if t.contains sep then t.takeWhile (fun c => c != sep) else t)
    title.toList
  (pyStripChars cut).asString

/-- The sort strategies of `search_competitors` (src/oxylabs_client.py
line 134). -/
def STRATEGIES : List String := ["featured", "price_ascending", "price_descending"]

/-- The request payload built per iteration by `search_competitors`
(src/oxylabs_client.py lines 138-149): `geo_location` is always present, and
`refinements` is added exactly when the category list is nonempty with a
truthy first element. -/
def search_payload (cleanTitle : String) (domV : Value) (page : Nat)
    (sortBy : String) (geoV : Value) (categories : List Value) : Dict :=
  let payload : Dict :=
    [("source", .vstr "amazon_search"), ("query", .vstr cleanTitle),
     ("parse", .vbool true), ("domain", domV), ("page", .vnum page),
     ("sort_by", .vstr sortBy), ("geo_location", geoV)]
  match categories with
  | c :: _ => if vtruthy c then dset payload "refinements" (.vdict [("category", c)]) else payload
  | [] => payload

/-- `_extract_search_items` (src/oxylabs_client.py lines 167-177). -/
def extract_search_items (content : Value) : List Value :=
  let toItems : Value → List Value := fun v =>
    match v with
    | .vlist l => l
    | _ => []
  let fromResults :=
    match vget content "results" with
    | .vdict r => toItems (getVD r "organic" (.vlist [])) ++ toItems (getVD r "paid" (.vlist []))
    | _ => []
  let fromProducts :=
    match vget content "products" with
    | .vlist l => l
    | _ => []
  fromResults ++ fromProducts

/-- `_normalize_search_result` (src/oxylabs_client.py lines 180-193): an entry
whose `asin` (or fallback `product_asin`) or `title` is falsy is discarded. -/
def normalize_search_result (item : Value) : Option Dict :=
  let asin := pyOr (vget item "asin") (vget item "product_asin")
  let title := vget item "title"
  if vtruthy asin && vtruthy title then
    some [("asin", asin), ("title", title), ("category", vget item "category"),
          ("price", vget item "price"), ("rating", vget item "rating")]
  else none

/-- One `(sort_by, page)` iteration of `search_competitors`
(src/oxylabs_client.py lines 136-161), threading the `seen_asins` set and the
accumulated results. -/
def search_step (post : Dict → Except Unit Value) (cleanTitle : String)
    (domV geoV : Value) (categories : List Value)
    (st : List Value × List Dict) (sp : String × Nat) :
    Except Unit (List Value × List Dict) :=
  match post (search_payload cleanTitle domV sp.2 sp.1 geoV categories) with
  | .error e => .error e
  | .ok raw =>
    let content := extract_content raw
    .ok ((extract_search_items content).foldl
      (fun st item =>
        match normalize_search_result item with
        | none => st
        | some normalized =>
          let asin := getV normalized "asin"
          if asin ∈ st.1 then st else (st.1 ++ [asin], st.2 ++ [normalized]))
      st)

/-- `search_competitors` (src/oxylabs_client.py lines 120-164): fan-out over
the three sort strategies and pages `1 .. max(1, pages)`, deduplicating hits
by `asin` with a seen-set, first occurrence wins. -/
def search_competitors (post : Dict → Except Unit Value) (queryTitle : String)
    (domV : Value) (categories : List Value) (pages : Nat) (geoV : Value) :
    Except Unit (List Dict) :=
  let cleanTitle := clean_product_name queryTitle
  let iters := STRATEGIES.flatMap (fun s => (List.range' 1 (max 1 pages)).map (fun p => (s, p)))
  match iters.foldlM (search_step post cleanTitle domV geoV categories) ([], []) with
  | .error e => .error e
  | .ok st => .ok st.2

/-- `scrape_multiple_products` (src/oxylabs_client.py lines 203-225): each
identifier is fetched in turn; any exception is caught and that identifier
skipped. -/
def scrape_multiple_products (post : Dict → Except Unit Value)
    (geoV domV : Value) : List Value → List Dict
  | [] => []
  | a :: rest =>
    match scrape_product_details post a geoV domV with
    | .ok p => p :: scrape_multiple_products post geoV domV rest
    | .error _ => scrape_multiple_products post geoV domV rest

/-! ## name.py (superseded standalone client revision) -/

/-- The request payload built by `scrape_product_oxylabs` (name.py
lines 27-36): `geo_location` is included only when it is truthy and the domain
is not in the (duplicated, as in the source) unsupported list `["ae", "ae"]`. -/
def scrape_product_oxylabs_payload (asin domain : String)
    (geo_location : Option String) : Dict :=
  let payload : Dict :=
    [("source", .vstr "amazon_product"), ("query", .vstr asin),
     ("domain", .vstr domain), ("parse", .vbool true)]
  if vtruthy (optV geo_location) && !(["ae", "ae"].contains domain) then
    dset payload "geo_location" (optV geo_location)
  else payload

/-! ## src/db.py

The TinyDB-backed store is a list of documents in insertion order.  The
monotone UTC clock `datetime.now(timezone.utc).isoformat()` is modelled by an
integer timestamp passed per call.  TinyDB's `table.upsert(data, cond)`
updates every document matching `cond` by `doc.update(data)` and inserts
`data` when none matches; `Query().asin == asin` matches a document whose
`asin` key is present and equal. -/

/-- `Database.upsert_product` (src/db.py lines 26-40).  Note
`data.setdefault("created_at", now)` acts on the incoming record, not on the
stored document: a supplied record lacking `created_at` overwrites the stored
one with the current time. -/
def upsert_product (now : Int) (store : List Dict) (product : Dict) :
    Except String (List Dict) :=
  let asin := getV product "asin"
  if vtruthy asin then
    let data := dset product "updated_at" (.vnum now)
    let data := dsetdefault data "created_at" (.vnum now)
    let data := dsetdefault data "type" (.vstr "product")
    if store.any (fun doc => dget doc "asin" == some asin) then
      .ok (store.map (fun doc => if dget doc "asin" = some asin then dupdate doc data else doc))
    else
      .ok (store ++ [data])
  else
    .error "Product must contain an ASIN"

/-- `Database.get_product` (src/db.py lines 46-48): the first document whose
`asin` equals the argument. -/
def db_get_product (store : List Dict) (asin : String) : Option Dict :=
  store.find? (fun doc => dget doc "asin" == some (Value.vstr asin))

/-- A sequence of `upsert_product` calls, each with its own clock reading. -/
def upsert_seq (calls : List (Int × Dict)) (store : List Dict) :
    Except String (List Dict) :=
  calls.foldlM (fun s c => upsert_product c.1 s c.2) store

/-! ## src/services.py -/

/-- Failure modes a service run can surface: `ValueError` raised by the
service or the store, `TypeError` from applying `_clean_product_name` to a
non-string title, and a propagated transport / credential error from
`_post_query`. -/
inductive RunError where
  | valueError
  | typeError
  | transport
  deriving DecidableEq

/-- `scrape_and_store_product` (src/services.py lines 14-52): scrape one
product, stamp it, reject it when the title is falsy, and upsert it.  Returns
the new store and the stored record. -/
def scrape_and_store_product (post : Dict → Except Unit Value) (now : Int)
    (db : List Dict) (asin : String) (geo : Option String) (domain : String) :
    Except RunError (List Dict × Dict) :=
  match scrape_product_details post (.vstr asin) (optV geo) (.vstr domain) with
  | .error _ => .error .transport
  | .ok data =>
    if data.isEmpty then .error .valueError
    else
      let data := dupdate data
        [("asin", .vstr asin), ("geo_location", optV geo),
         ("amazon_domain", .vstr domain), ("type", .vstr "product")]
      if vtruthy (getV data "title") then
        match upsert_product now db data with
        | .error _ => .error .valueError
        | .ok db2 => .ok (db2, data)
      else .error .valueError

/-- The category collection of `fetch_and_store_competitors`
(src/services.py lines 83-89): every nonempty-after-strip string found in the
parent's `categories` and `category_path` fields, stripped, in traversal
order (before the Python `set` destroys that order). -/
def collect_categories (parent : Dict) : List String :=
  ["categories", "category_path"].flatMap (fun field =>
    match getVD parent field (.vlist []) with
    | .vlist l =>
      l.filterMap (fun cat =>
        match cat with
        | .vstr s => if pyStrip s != "" then some (pyStrip s) else none
        | _ => none)
    | _ => [])

/-- The candidate filter of `fetch_and_store_competitors` (src/services.py
lines 103-109): keep hits with truthy `asin` and `title` whose `asin` differs
from the parent's. -/
def candidate_filter (parent_asin : String) (all_results : List Dict) : List Dict :=
  all_results.filter (fun r =>
    vtruthy (getV r "asin") && vtruthy (getV r "title") &&
      !(getV r "asin" == Value.vstr parent_asin))

/-- `list(set(...))` in Python iterates in an unspecified, hash-seed-dependent
order.  A faithful model of such a conversion is any function whose output is
duplicate-free and has exactly the elements of its input; `PySetChoice` states
that contract, and the pipeline is parameterised by such a choice function. -/
def PySetChoice {α : Type} (f : List α → List α) : Prop :=
  ∀ l, (f l).Nodup ∧ ∀ a, a ∈ f l ↔ a ∈ l

/-- The category argument passed per pass (src/services.py line 97):
`[category] if category else []`. -/
def category_arg : Option String → List Value
  | none => []
  | some s => if s ≠ "" then [Value.vstr s] else []

/-- The competitor stamp of `fetch_and_store_competitors` (src/services.py
lines 130-137): `product.update({...})` with type, parent reference, domain
and geo. -/
def stamp (parent_asin : String) (search_domain search_geo : Value) (product : Dict) : Dict :=
  dupdate product
    [("type", .vstr "competitor"), ("parent_asin", .vstr parent_asin),
     ("amazon_domain", search_domain), ("geo_location", search_geo)]

/-- One iteration of the storage loop of `fetch_and_store_competitors`
(src/services.py lines 125-140): skip a scraped record with falsy `asin`,
otherwise stamp it as a competitor of the parent and upsert it. -/
def store_step (now : Int) (parent_asin : String) (search_domain search_geo : Value)
    (st : List Dict × List Dict) (product : Dict) :
    Except RunError (List Dict × List Dict) :=
  if vtruthy (getV product "asin") then
    let product2 := stamp parent_asin search_domain search_geo product
    match upsert_product now st.1 product2 with
    | .error _ => .error RunError.valueError
    | .ok db2 => .ok (db2, st.2 ++ [product2])
  else .ok st

/-- The intermediate values of one `fetch_and_store_competitors` run. -/
structure RunState where
  parent : Dict
  search_domain : Value
  search_geo : Value
  categories : List (Option String)
  all_results : List Dict
  candidates : List Value
  fetched : List Value
  scraped : List Dict
  db : List Dict
  stored : List Dict

/-- The sort-strategy fan-out accumulation over the category passes
(src/services.py lines 92-101). -/
def gather_results (post : Dict → Except Unit Value) (queryTitle : String)
    (search_domain search_geo : Value) (categories : List (Option String))
    (pages : Nat) : Except RunError (List Dict) :=
  categories.foldlM (fun acc c =>
    match search_competitors post queryTitle search_domain (category_arg c) pages
        search_geo with
    | .error _ => .error RunError.transport
    | .ok rs => .ok (acc ++ rs)) []

/-- `fetch_and_store_competitors` (src/services.py lines 55-148), exposing its
intermediate values.  `choiceS` and `choiceV` model the two `list(set(...))`
conversions (categories, candidate asins); `post` models `_post_query`; `now`
models the clock during the storage loop.  The early `return []` on an empty
candidate list is behaviourally the general path (no request is issued for an
empty batch and the storage loop is empty), so no separate branch is needed. -/
def discovery_run (choiceS : List String → List String)
    (choiceV : List Value → List Value) (post : Dict → Except Unit Value)
    (now : Int) (db : List Dict) (parent_asin : String)
    (domain geo : Option String) (pages limit : Nat) :
    Except RunError RunState :=
  match db_get_product db parent_asin with
  | none => .error RunError.valueError
  | some parent =>
    if parent.isEmpty then .error RunError.valueError
    else
      let search_domain := pyOr (getV parent "amazon_domain") (pyOr (optV domain) (.vstr "com"))
      let search_geo := pyOr (getV parent "geo_location") (pyOr (optV geo) (.vstr ""))
      let cats := (choiceS (collect_categories parent)).take 3
      let categories : List (Option String) := if cats.isEmpty then [none] else cats.map some
      match getV parent "title" with
      | .vstr queryTitle =>
        match gather_results post queryTitle search_domain search_geo categories pages with
        | .error e => .error e
        | .ok all_results =>
          let candidates := choiceV ((candidate_filter parent_asin all_results).map
            (fun r => getV r "asin"))
          let fetched := candidates.take limit
          let scraped := scrape_multiple_products post search_geo search_domain fetched
          match scraped.foldlM (store_step now parent_asin search_domain search_geo)
              (db, []) with
          | .error e => .error e
          | .ok res =>
            .ok ⟨parent, search_domain, search_geo, categories, all_results, candidates,
              fetched, scraped, res.1, res.2⟩
      | _ => .error RunError.typeError

/-- The caller-visible behaviour of `fetch_and_store_competitors`: the final
store and the returned list of stored competitor records. -/
def fetch_and_store_competitors (choiceS : List String → List String)
    (choiceV : List Value → List Value) (post : Dict → Except Unit Value)
    (now : Int) (db : List Dict) (parent_asin : String)
    (domain geo : Option String) (pages limit : Nat) :
    Except RunError (List Dict × List Dict) :=
  (discovery_run choiceS choiceV post now db parent_asin domain geo pages limit).map
    (fun st => (st.db, st.stored))

/-- Contract of the external detail API assumed by the discovery claims: a
successfully fetched record carries the requested identifier in its `asin`
field, or no truthy `asin` at all.  (The scraped `asin` comes from the
response content — `product.setdefault("asin", asin)` never fires — so this
is a property of the remote service, not of the code.) -/
def DetailsFaithful (post : Dict → Except Unit Value) : Prop :=
  ∀ a geoV domV r, scrape_product_details post a geoV domV = .ok r →
    getV r "asin" = a ∨ vtruthy (getV r "asin") = false

/-! ## Lemmas about the dictionary model -/

theorem dget_append (d e : Dict) (k : String) :
    dget (d ++ e) k = (dget d k).or (dget e k) := by
  induction d with
  | nil => simp [dget]
  | cons kv rest ih =>
    by_cases h : kv.1 = k <;> simp [dget, h, ih]

theorem dget_dset (d : Dict) (k : String) (v : Value) (k2 : String) :
    dget (dset d k v) k2 = if k = k2 then some v else dget d k2 := by
  induction d with
  | nil =>
    by_cases h : k = k2 <;> simp [dset, dget, h]
  | cons kv rest ih =>
    obtain ⟨k1, v1⟩ := kv
    by_cases h1 : k1 = k
    · subst h1
      by_cases h2 : k1 = k2 <;> simp [dset, dget, h2]
    · by_cases h2 : k1 = k2
      · subst h2
        have hne : ¬(k = k1) := fun hk => h1 hk.symm
        simp [dset, dget, h1, hne]
      · simp [dset, dget, h1, h2, ih]

theorem dget_dsetdefault (d : Dict) (k : String) (v : Value) (k2 : String) :
    dget (dsetdefault d k v) k2 =
      if k = k2 then some ((dget d k).getD v) else dget d k2 := by
  by_cases h : (dget d k).isSome
  · obtain ⟨w, hw⟩ := Option.isSome_iff_exists.mp h
    by_cases h2 : k = k2
    · subst h2
      simp [dsetdefault, h, hw]
    · simp [dsetdefault, h, h2]
  · have hnone : dget d k = none := Option.not_isSome_iff_eq_none.mp h
    by_cases h2 : k = k2
    · subst h2
      simp [dsetdefault, h, dget_append, hnone, dget]
    · simp [dsetdefault, h, dget_append, h2, hnone, dget,
        fun hk : k2 = k => h2 hk.symm]

theorem dupdate_nil (d : Dict) : dupdate d [] = d := rfl

theorem dupdate_cons (d : Dict) (k : String) (v : Value) (e : Dict) :
    dupdate d ((k, v) :: e) = dupdate (dset d k v) e := rfl

theorem dget_dupdate_none (d e : Dict) (k : String) (h : dget e k = none) :
    dget (dupdate d e) k = dget d k := by
  induction e generalizing d with
  | nil => rfl
  | cons kv rest ih =>
    obtain ⟨k1, v1⟩ := kv
    have h1 : ¬(k1 = k) := by
      intro hk
      simp [dget, hk] at h
    have h2 : dget rest k = none := by
      simpa [dget, h1] using h
    rw [dupdate_cons, ih _ h2, dget_dset, if_neg h1]

/-- A well-formed dictionary has pairwise distinct keys (every Python dict
does). -/
def DictWF (d : Dict) : Prop := (d.map Prod.fst).Nodup

instance (d : Dict) : Decidable (DictWF d) := by
  unfold DictWF
  infer_instance

theorem dget_eq_none_of_not_mem_keys (d : Dict) (k : String)
    (h : k ∉ d.map Prod.fst) : dget d k = none := by
  induction d with
  | nil => rfl
  | cons kv rest ih =>
    have h1 : ¬(kv.1 = k) := fun he => h (by simp [he])
    simp only [dget, h1, if_false]
    exact ih (fun hm => h (List.mem_cons_of_mem _ hm))

theorem dget_dupdate_some (e : Dict) (k : String) (v : Value)
    (hwf : DictWF e) (h : dget e k = some v) :
    ∀ d : Dict, dget (dupdate d e) k = some v := by
  induction e with
  | nil => simp [dget] at h
  | cons kv rest ih =>
    intro d
    obtain ⟨k1, v1⟩ := kv
    by_cases h1 : k1 = k
    · subst h1
      have hv : v1 = v := by simpa [dget] using h
      subst hv
      have hrest : dget rest k1 = none :=
        dget_eq_none_of_not_mem_keys rest k1 (by simpa [DictWF] using (List.nodup_cons.mp hwf).1)
      rw [dupdate_cons, dget_dupdate_none _ _ _ hrest, dget_dset, if_pos rfl]
    · have h2 : dget rest k = some v := by simpa [dget, h1] using h
      exact ih (List.nodup_cons.mp hwf).2 h2 (dset d k1 v1)

/-! ## Admissible models of Python set iteration -/

/-- First-seen-order deduplication: one admissible linearization of a Python
set built by insertion from a list. -/
def pySetList {α : Type} [DecidableEq α] : List α → List α
  | [] => []
  | a :: rest => a :: (pySetList rest).filter (fun b => b ≠ a)

theorem pySetList_mem {α : Type} [DecidableEq α] (l : List α) (a : α) :
    a ∈ pySetList l ↔ a ∈ l := by
  induction l with
  | nil => simp [pySetList]
  | cons x rest ih =>
    by_cases h : a = x <;> simp [pySetList, h, ih, List.mem_filter]

theorem pySetList_nodup {α : Type} [DecidableEq α] (l : List α) :
    (pySetList l).Nodup := by
  induction l with
  | nil => simp [pySetList]
  | cons x rest ih =>
    refine List.nodup_cons.mpr ⟨?_, ih.filter _⟩
    intro hmem
    have := (List.mem_filter.mp hmem).2
    simp at this

theorem pySetChoice_pySetList {α : Type} [DecidableEq α] :
    PySetChoice (pySetList (α := α)) :=
  fun l => ⟨pySetList_nodup l, fun a => pySetList_mem l a⟩

theorem pySetChoice_reverse {α : Type} [DecidableEq α] :
    PySetChoice (fun l : List α => (pySetList l).reverse) :=
  fun l => ⟨List.nodup_reverse.mpr (pySetList_nodup l), fun a => by simp [pySetList_mem]⟩

/-! ## Helper lemmas about the store and the pipeline -/

theorem except_bind_ok {ε α β : Type} (a : α) (f : α → Except ε β) :
    (Except.ok a >>= f : Except ε β) = f a := rfl

theorem except_bind_error {ε α β : Type} (e : ε) (f : α → Except ε β) :
    (Except.error e >>= f : Except ε β) = Except.error e := rfl

theorem except_pure_eq {ε α : Type} (a : α) : (pure a : Except ε α) = Except.ok a := rfl

theorem except_mapError_ok {ε ε2 α : Type} (g : ε → ε2) (a : α) :
    Except.mapError g (Except.ok a) = Except.ok a := rfl

theorem except_mapError_error {ε ε2 α : Type} (g : ε → ε2) (e : ε) :
    Except.mapError g (Except.error e : Except ε α) = Except.error (g e) := rfl

theorem except_map_ok {ε α β : Type} (g : α → β) (a : α) :
    (Except.ok a : Except ε α).map g = Except.ok (g a) := rfl

theorem except_map_error {ε α β : Type} (g : α → β) (e : ε) :
    (Except.error e : Except ε α).map g = Except.error e := rfl

theorem stamp_asin (pa : String) (dm ge : Value) (p : Dict) :
    dget (stamp pa dm ge p) "asin" = dget p "asin" := by
  apply dget_dupdate_none
  simp [dget]

theorem getV_stamp_asin (pa : String) (dm ge : Value) (p : Dict) :
    getV (stamp pa dm ge p) "asin" = getV p "asin" := by
  simp [getV, stamp_asin]

theorem upsert_ok_of_truthy (now : Int) (store : List Dict) (p : Dict)
    (h : vtruthy (getV p "asin") = true) :
    ∃ s, upsert_product now store p = .ok s := by
  unfold upsert_product
  simp only [h, if_true]
  by_cases hc : store.any (fun doc => dget doc "asin" == some (getV p "asin")) <;>
    simp [hc]

theorem store_foldlM_spec (now : Int) (pa : String) (dm ge : Value) :
    ∀ (scraped db0 st0 : List Dict),
      ∃ db1, List.foldlM (store_step now pa dm ge) (db0, st0) scraped =
        .ok (db1, st0 ++ (scraped.filter
          (fun p => vtruthy (getV p "asin"))).map (stamp pa dm ge)) := by
  intro scraped
  induction scraped with
  | nil => exact fun db0 st0 => ⟨db0, by simp [except_pure_eq]⟩
  | cons p rest ih =>
    intro db0 st0
    by_cases h : vtruthy (getV p "asin") = true
    · have hst : vtruthy (getV (stamp pa dm ge p) "asin") = true := by
        rw [getV_stamp_asin]; exact h
      obtain ⟨db2, hdb2⟩ := upsert_ok_of_truthy now db0 (stamp pa dm ge p) hst
      obtain ⟨db1, ih1⟩ := ih db2 (st0 ++ [stamp pa dm ge p])
      refine ⟨db1, ?_⟩
      simp [store_step, h, hdb2, ih1, List.filter_cons, except_mapError_ok,
        except_bind_ok, except_pure_eq, List.append_assoc]
    · obtain ⟨db1, ih1⟩ := ih db0 st0
      refine ⟨db1, ?_⟩
      simp [store_step, h, ih1, List.filter_cons, except_bind_ok]

theorem scrape_multiple_eq_filterMap (post : Dict → Except Unit Value)
    (geoV domV : Value) :
    ∀ asins : List Value, scrape_multiple_products post geoV domV asins =
      asins.filterMap (fun a => (scrape_product_details post a geoV domV).toOption)
  | [] => rfl
  | a :: rest => by
    cases h : scrape_product_details post a geoV domV <;>
      simp [scrape_multiple_products, h, Except.toOption,
        scrape_multiple_eq_filterMap post geoV domV rest]

theorem discovery_run_ok_shape
    {choiceS : List String → List String} {choiceV : List Value → List Value}
    {post : Dict → Except Unit Value} {now : Int} {db : List Dict}
    {pa : String} {dom geo : Option String} {pages limit : Nat} {st : RunState}
    (h : discovery_run choiceS choiceV post now db pa dom geo pages limit = .ok st) :
    st.candidates = choiceV ((candidate_filter pa st.all_results).map (fun r => getV r "asin"))
    ∧ st.fetched = st.candidates.take limit
    ∧ st.scraped = scrape_multiple_products post st.search_geo st.search_domain st.fetched
    ∧ st.stored = (st.scraped.filter (fun p => vtruthy (getV p "asin"))).map
        (stamp pa st.search_domain st.search_geo) := by
  unfold discovery_run at h
  cases hp : db_get_product db pa with
  | none => simp only [hp] at h; exact absurd h (by simp)
  | some p =>
    simp only [hp] at h
    by_cases hpe : p.isEmpty
    · simp [hpe] at h
    · simp only [hpe, Bool.false_eq_true, if_false] at h
      cases ht : getV p "title" with
      | vstr s =>
        simp only [ht] at h
        cases har : gather_results post s
            (pyOr (getV p "amazon_domain") (pyOr (optV dom) (.vstr "com")))
            (pyOr (getV p "geo_location") (pyOr (optV geo) (.vstr "")))
            (if ((choiceS (collect_categories p)).take 3).isEmpty then [none]
              else ((choiceS (collect_categories p)).take 3).map some) pages with
        | error e => simp only [har] at h; exact absurd h (by simp)
        | ok all =>
          simp only [har] at h
          obtain ⟨db1, hdb1⟩ := store_foldlM_spec now pa
            (pyOr (getV p "amazon_domain") (pyOr (optV dom) (.vstr "com")))
            (pyOr (getV p "geo_location") (pyOr (optV geo) (.vstr "")))
            (scrape_multiple_products post
              (pyOr (getV p "geo_location") (pyOr (optV geo) (.vstr "")))
              (pyOr (getV p "amazon_domain") (pyOr (optV dom) (.vstr "com")))
              ((choiceV ((candidate_filter pa all).map (fun r => getV r "asin"))).take limit))
            db []
          simp only [hdb1, Except.ok.injEq] at h
          subst h
          simp
      | vnull => simp only [ht] at h; exact absurd h (by simp)
      | vbool b => simp only [ht] at h; exact absurd h (by simp)
      | vnum n => simp only [ht] at h; exact absurd h (by simp)
      | vlist l => simp only [ht] at h; exact absurd h (by simp)
      | vdict l => simp only [ht] at h; exact absurd h (by simp)

theorem takeWhile_ne_of_not_contains :
    ∀ (t : List Char) (sep : Char), t.contains sep = false →
      t.takeWhile (fun c => c != sep) = t
  | [], _, _ => rfl
  | c :: rest, sep, h => by
    rw [List.contains_cons, Bool.or_eq_false_iff] at h
    have hc : (c == sep) = false :=
      beq_eq_false_iff_ne.mpr (fun he => (beq_eq_false_iff_ne.mp h.1) he.symm)
    have hr : rest.contains sep = false := h.2
    have hbne : (c != sep) = true := by simp [bne, hc]
    simp only [List.takeWhile_cons, hbne, if_true]
    rw [takeWhile_ne_of_not_contains rest sep hr]

theorem py_cut_eq_takeWhile (t : List Char) (sep : Char) :
    (if t.contains sep then t.takeWhile (fun c => c != sep) else t) =
      t.takeWhile (fun c => c != sep) := by
  by_cases h : t.contains sep
  · rw [if_pos h]
  · rw [if_neg h, takeWhile_ne_of_not_contains t sep (Bool.not_eq_true _ ▸ h)]

theorem dget_isSome_of_mem_keys (d : Dict) (k : String)
    (h : k ∈ d.map Prod.fst) : (dget d k).isSome := by
  induction d with
  | nil => simp at h
  | cons kv rest ih =>
    by_cases h1 : kv.1 = k
    · simp [dget, h1]
    · simp only [List.map_cons, List.mem_cons] at h
      rcases h with h | h
      · exact absurd h.symm h1
      · simp [dget, h1, ih h]

theorem keys_dset (d : Dict) (k : String) (v : Value) :
    (dset d k v).map Prod.fst =
      if (dget d k).isSome then d.map Prod.fst else d.map Prod.fst ++ [k] := by
  induction d with
  | nil => simp [dset, dget]
  | cons kv rest ih =>
    obtain ⟨k1, v1⟩ := kv
    by_cases h1 : k1 = k
    · subst h1
      simp [dset, dget]
    · simp only [dset, h1, if_false, dget, List.map_cons, ih]
      by_cases hs : (dget rest k).isSome <;> simp [hs]

theorem DictWF_dset (d : Dict) (k : String) (v : Value) (h : DictWF d) :
    DictWF (dset d k v) := by
  unfold DictWF
  rw [keys_dset]
  by_cases hs : (dget d k).isSome
  · simpa [hs] using h
  · have hk : k ∉ d.map Prod.fst := fun hm => hs (dget_isSome_of_mem_keys d k hm)
    simp only [hs, if_false]
    simp [List.nodup_append, hk]
    exact h

theorem DictWF_dsetdefault (d : Dict) (k : String) (v : Value) (h : DictWF d) :
    DictWF (dsetdefault d k v) := by
  unfold dsetdefault
  by_cases hs : (dget d k).isSome
  · simpa [hs]
  · have hk : k ∉ d.map Prod.fst := fun hm => hs (dget_isSome_of_mem_keys d k hm)
    simp only [hs, if_false]
    unfold DictWF
    simp [List.nodup_append, hk]
    exact h

theorem dget_some_of_getV_truthy (p : Dict) (k : String)
    (h : vtruthy (getV p k) = true) : dget p k = some (getV p k) := by
  cases hd : dget p k with
  | none => rw [getV, hd] at h; simp [vtruthy] at h
  | some w => rw [getV, hd]; rfl

/-- The record written by `upsert_product` after stamping timestamps and the
default type (src/db.py lines 34-37). -/
def upsert_data (now : Int) (product : Dict) : Dict :=
  dsetdefault (dsetdefault (dset product "updated_at" (.vnum now))
    "created_at" (.vnum now)) "type" (.vstr "product")

theorem upsert_product_eq (now : Int) (store : List Dict) (product : Dict)
    (h : vtruthy (getV product "asin") = true) :
    upsert_product now store product =
      (if store.any (fun doc => dget doc "asin" == some (getV product "asin")) then
        .ok (store.map (fun doc =>
          if dget doc "asin" = some (getV product "asin") then
            dupdate doc (upsert_data now product)
          else doc))
      else .ok (store ++ [upsert_data now product])) := by
  unfold upsert_product upsert_data
  rw [if_pos h]

theorem DictWF_upsert_data (now : Int) (product : Dict) (h : DictWF product) :
    DictWF (upsert_data now product) :=
  DictWF_dsetdefault _ _ _ (DictWF_dsetdefault _ _ _ (DictWF_dset _ _ _ h))

theorem upsert_data_asin (now : Int) (product : Dict) :
    dget (upsert_data now product) "asin" = dget product "asin" := by
  simp [upsert_data, dget_dsetdefault, dget_dset]

theorem upsert_data_updated_at (now : Int) (product : Dict) :
    dget (upsert_data now product) "updated_at" = some (.vnum now) := by
  simp [upsert_data, dget_dsetdefault, dget_dset]

theorem upsert_data_created_at (now : Int) (product : Dict) :
    dget (upsert_data now product) "created_at" =
      some ((dget product "created_at").getD (.vnum now)) := by
  simp [upsert_data, dget_dsetdefault, dget_dset]

theorem upsert_data_other (now : Int) (product : Dict) (k : String) (v : Value)
    (hk : k ≠ "updated_at") (h : dget product k = some v) :
    dget (upsert_data now product) k = some v := by
  have hk2 : ¬(("updated_at" : String) = k) := fun he => hk he.symm
  by_cases h1 : ("type" : String) = k
  · subst h1
    simp [upsert_data, dget_dsetdefault, dget_dset, hk2, h]
  · by_cases h2 : ("created_at" : String) = k
    · subst h2
      simp [upsert_data, dget_dsetdefault, dget_dset, hk2, h]
    · simp [upsert_data, dget_dsetdefault, dget_dset, h1, h2, hk2, h]

theorem upsert_data_none (now : Int) (product : Dict) (k : String)
    (h : dget product k = none) (h1 : k ≠ "updated_at") (h2 : k ≠ "created_at")
    (h3 : k ≠ "type") :
    dget (upsert_data now product) k = none := by
  have t1 : ¬(("updated_at" : String) = k) := fun he => h1 he.symm
  have t2 : ¬(("created_at" : String) = k) := fun he => h2 he.symm
  have t3 : ¬(("type" : String) = k) := fun he => h3 he.symm
  simp [upsert_data, dget_dsetdefault, dget_dset, t1, t2, t3, h]

/-- `id` uniqueness invariant of the store: at most one document per asin
value. -/
def AsinUnique (store : List Dict) : Prop :=
  ∀ a : Value, store.countP (fun doc => dget doc "asin" == some a) ≤ 1

/-- The asin fields of the records a run returns, as a function of the
fetched candidate list: each fetched identifier contributes its scraped
record's asin when the fetch succeeded and the record's asin is truthy. -/
theorem discovery_stored_asins
    {choiceS : List String → List String} {choiceV : List Value → List Value}
    {post : Dict → Except Unit Value} {now : Int} {db : List Dict}
    {pa : String} {dom geo : Option String} {pages limit : Nat} {st : RunState}
    (h : discovery_run choiceS choiceV post now db pa dom geo pages limit = .ok st) :
    st.stored.map (fun d => getV d "asin") =
      st.fetched.filterMap (fun a =>
        (((scrape_product_details post a st.search_geo st.search_domain).toOption).filter
          (fun p => vtruthy (getV p "asin"))).map (fun p => getV p "asin")) := by
  obtain ⟨hc, hf, hs, hst⟩ := discovery_run_ok_shape h
  rw [hst, List.map_map]
  have hpt : ∀ p ∈ st.scraped.filter (fun p => vtruthy (getV p "asin")),
      ((fun d => getV d "asin") ∘ stamp pa st.search_domain st.search_geo) p =
        getV p "asin" := by
    intro p hp
    exact getV_stamp_asin pa st.search_domain st.search_geo p
  rw [List.map_congr_left hpt, hs, scrape_multiple_eq_filterMap,
    List.filter_filterMap, List.map_filterMap]

theorem fetch_and_store_ok_inv
    {choiceS : List String → List String} {choiceV : List Value → List Value}
    {post : Dict → Except Unit Value} {now : Int} {db : List Dict}
    {pa : String} {dom geo : Option String} {pages limit : Nat}
    {db2 stored : List Dict}
    (h : fetch_and_store_competitors choiceS choiceV post now db pa dom geo pages limit
      = .ok (db2, stored)) :
    ∃ st : RunState,
      discovery_run choiceS choiceV post now db pa dom geo pages limit = .ok st
      ∧ st.db = db2 ∧ st.stored = stored := by
  unfold fetch_and_store_competitors at h
  cases hr : discovery_run choiceS choiceV post now db pa dom geo pages limit with
  | error e => rw [hr] at h; exact absurd h (by simp [except_map_error])
  | ok st =>
    rw [hr, except_map_ok] at h
    simp only [Except.ok.injEq, Prod.mk.injEq] at h
    exact ⟨st, rfl, h.1, h.2⟩

/-! ## A concrete demonstration environment

A small external-API oracle used to instantiate the claims on concrete runs:
search queries answer with a fixed result page and detail queries echo the
requested identifier back as the content's `asin` (the behaviour of the real
service). -/

/-- A search hit as returned inside the `organic` results. -/
def demoHit (a t : String) : Value :=
  .vdict [("asin", .vstr a), ("title", .vstr t)]

/-- The fixed search result page: a duplicate hit, the parent itself, and
three distinct competitors, in first-seen order C1, C2, C3. -/
def demoSearchContent : Value :=
  .vdict [("results", .vdict [("organic", .vlist
    [demoHit "C1" "Mouse A", demoHit "C1" "Mouse A dup", demoHit "P1" "self",
     demoHit "C2" "Mouse B", demoHit "C3" "Mouse C"])])]

/-- The demonstration oracle for `_post_query`. -/
def demoPost (payload : Dict) : Except Unit Value :=
  if dget payload "source" = some (Value.vstr "amazon_search") then
    .ok (.vdict [("content", demoSearchContent)])
  else
    match dget payload "query" with
    | some q => .ok (.vdict [("content", .vdict [("asin", q), ("title", .vstr "Fetched")])])
    | none => .error ()

/-- A stored parent product. -/
def demoParent : Dict :=
  [("asin", .vstr "P1"), ("title", .vstr "Wireless Mouse"),
   ("categories", .vlist [.vstr "Electronics"]), ("amazon_domain", .vstr "com"),
   ("type", .vstr "product")]

/-- A store holding only the parent. -/
def demoDb : List Dict := [demoParent]

/-- An adversarial-but-admissible model of `list(set(...))`: reversed
first-seen order (Python's set iteration order depends on the hash seed and
may differ from insertion order). -/
def revChoiceV : List Value → List Value := fun l => (pySetList l).reverse

/-- A default `RunState` used only to project concrete successful runs. -/
def runStateDefault : RunState :=
  ⟨[], .vnull, .vnull, [], [], [], [], [], [], []⟩

theorem details_payload_source (a g d : Value) :
    dget (details_payload a g d) "source" = some (.vstr "amazon_product") := by
  unfold details_payload
  by_cases hg : vtruthy g = true
  · rw [if_pos hg, dget_dset]
    simp [dget]
  · rw [if_neg hg]
    simp [dget]

theorem details_payload_query (a g d : Value) :
    dget (details_payload a g d) "query" = some a := by
  unfold details_payload
  by_cases hg : vtruthy g = true
  · rw [if_pos hg, dget_dset]
    simp [dget]
  · rw [if_neg hg]
    simp [dget]

theorem demoPost_details (a g d : Value) :
    demoPost (details_payload a g d) =
      .ok (.vdict [("content", .vdict [("asin", a), ("title", .vstr "Fetched")])]) := by
  unfold demoPost
  rw [details_payload_source, details_payload_query]
  simp

theorem demoPost_scrape (a g d : Value) :
    ∃ r, scrape_product_details demoPost a g d = .ok r ∧ getV r "asin" = a := by
  unfold scrape_product_details
  rw [demoPost_details a g d]
  refine ⟨_, rfl, ?_⟩
  have hcontent : extract_content
      (.vdict [("content", .vdict [("asin", a), ("title", .vstr "Fetched")])]) =
      .vdict [("asin", a), ("title", .vstr "Fetched")] := by
    simp [extract_content, dget, pyOr, getV, vtruthy]
  rw [hcontent]
  have hasin : dget (normalize_product (.vdict [("asin", a), ("title", .vstr "Fetched")]))
      "asin" = some a := by
    simp [normalize_product, dget, vget, getV]
  have hsd : dsetdefault (normalize_product (.vdict [("asin", a), ("title", .vstr "Fetched")]))
      "asin" a = normalize_product (.vdict [("asin", a), ("title", .vstr "Fetched")]) := by
    unfold dsetdefault
    rw [hasin]
    simp
  rw [hsd, getV, dget_dupdate_none _ _ _ (by simp [dget]), hasin]
  rfl

/-- The demonstration oracle satisfies the external contract `DetailsFaithful`. -/
theorem demoPost_faithful : DetailsFaithful demoPost := by
  intro a g d r h
  obtain ⟨r2, h2, ha⟩ := demoPost_scrape a g d
  rw [h2] at h
  exact Or.inl (Except.ok.inj h ▸ ha)

/-! ## Claim theorems -/

/-- C10: For every parent title, the search query sent to the external API is
not the raw title: the payload's `query` field holds `_clean_product_name` of
the title, which is the title truncated before the first `-` separator, then
before the first `|` separator, with surrounding whitespace stripped; two
titles agreeing up to the first `-` separator produce the same query. -/
theorem search_query_cleaned (title : String) (domV : Value) (page : Nat)
    (sortBy : String) (geoV : Value) (cats : List Value) :
    dget (search_payload (clean_product_name title) domV page sortBy geoV cats) "query"
      = some (.vstr (clean_product_name title))
    ∧ clean_product_name title =
        (pyStripChars ((title.toList.takeWhile (fun c => c != Char.ofNat 45)).takeWhile
          (fun c => c != Char.ofNat 124))).asString
    ∧ ∀ t2 : String,
        title.toList.takeWhile (fun c => c != Char.ofNat 45) =
          t2.toList.takeWhile (fun c => c != Char.ofNat 45) →
        clean_product_name title = clean_product_name t2 := by
  have hchar : ∀ t : String, clean_product_name t =
      (pyStripChars ((t.toList.takeWhile (fun c => c != Char.ofNat 45)).takeWhile
        (fun c => c != Char.ofNat 124))).asString := by
    intro t
    unfold clean_product_name
    rw [List.foldl_cons, List.foldl_cons, List.foldl_nil,
      py_cut_eq_takeWhile, py_cut_eq_takeWhile]
  refine ⟨?_, hchar title, ?_⟩
  · cases cats with
    | nil => rfl
    | cons c rest =>
      by_cases hc : vtruthy c
      · simp only [search_payload, hc, if_true]
        rw [dget_dset]
        simp [dget]
      · simp only [search_payload, hc, Bool.false_eq_true, if_false]
        simp [dget]
  · intro t2 hpre
    rw [hchar title, hchar t2, hpre]

/-- Witness for C10 at concrete titles sharing the prefix before the first
dash. -/
theorem search_query_cleaned_witness :
    clean_product_name "Wireless Mouse - Black" = clean_product_name "Wireless Mouse - Red" :=
  (search_query_cleaned "Wireless Mouse - Black" (.vstr "com") 1 "featured"
    (.vstr "") []).2.2 "Wireless Mouse - Red" (by decide)

/-- C9 counterexample: the canonical client includes `geo_location` for the
`ae` storefront — the very storefront the repository's own `name.py` client
marks as not supporting it — in both the search payload (always included,
src/oxylabs_client.py line 145) and the detail payload (included whenever
truthy, line 77); only `name.py` drops it. -/
theorem geo_param_counterexample :
    dget (search_payload "x" (.vstr "ae") 1 "featured" (.vstr "Dubai") []) "geo_location"
      = some (.vstr "Dubai")
    ∧ dget (details_payload (.vstr "B01MFDIAQM") (.vstr "Dubai") (.vstr "ae")) "geo_location"
      = some (.vstr "Dubai")
    ∧ dget (scrape_product_oxylabs_payload "B01MFDIAQM" "ae" (some "Dubai")) "geo_location"
      = none := by
  exact ⟨rfl, rfl, rfl⟩

/-- C9 amended: only the superseded `name.py` client gates `geo_location` on
storefront support (dropping it for the `ae` domain); the canonical client
includes it in a detail payload whenever it is truthy regardless of the
storefront, and always includes it in a search payload. -/
theorem geo_param_characterization :
    (∀ a g d : Value, dget (details_payload a g d) "geo_location" =
        if vtruthy g then some g else none)
    ∧ (∀ (t : String) (d : Value) (p : Nat) (s : String) (g : Value) (c : List Value),
        dget (search_payload t d p s g c) "geo_location" = some g)
    ∧ (∀ (a d : String) (g : Option String),
        dget (scrape_product_oxylabs_payload a d g) "geo_location" =
          if vtruthy (optV g) && !(["ae", "ae"].contains d) then some (optV g) else none) := by
  refine ⟨?_, ?_, ?_⟩
  · intro a g d
    by_cases h : vtruthy g
    · simp only [details_payload, h, if_true]
      rw [dget_dset]
      simp
    · simp [details_payload, h, dget]
  · intro t d p s g c
    cases c with
    | nil => simp [search_payload, dget]
    | cons c0 rest =>
      by_cases hc : vtruthy c0
      · simp only [search_payload, hc, if_true]
        rw [dget_dset]
        simp [dget]
      · simp only [search_payload, hc, Bool.false_eq_true, if_false]
        simp [dget]
  · intro a d g
    unfold scrape_product_oxylabs_payload
    by_cases h : (vtruthy (optV g) && !(["ae", "ae"].contains d)) = true
    · rw [if_pos h, if_pos h, dget_dset]
      simp
    · rw [if_neg h, if_neg h]
      simp [dget]

/-- C7: `_post_query` fails with a transport error exactly when all three
attempts fail; in that case the two sleeps between attempts are
`RETRY_BACKOFF * 1` and `RETRY_BACKOFF * 2`, a strictly increasing backoff;
and a success on any of the three attempts returns that response. -/
theorem post_query_retry_spec (f : Nat → Option Value) :
    ((post_query true f).1 = PostResult.transportError ↔
      f 1 = none ∧ f 2 = none ∧ f 3 = none)
    ∧ ((post_query true f).1 = PostResult.transportError →
        (post_query true f).2 = [RETRY_BACKOFF * 1, RETRY_BACKOFF * 2]
        ∧ List.Chain' (· < ·) (post_query true f).2)
    ∧ (∀ v : Value,
        (f 1 = some v ∨ (f 1 = none ∧ f 2 = some v) ∨
          (f 1 = none ∧ f 2 = none ∧ f 3 = some v)) →
        (post_query true f).1 = PostResult.ok v) := by
  have hrange : List.range' 1 MAX_RETRIES = [1, 2, 3] := by decide
  cases h1 : f 1 <;> cases h2 : f 2 <;> cases h3 : f 3 <;>
    refine ⟨?_, ?_, ?_⟩ <;>
    simp [post_query, post_query_go, hrange, h1, h2, h3, MAX_RETRIES, RETRY_BACKOFF]

/-- Witness for C7: with every attempt failing, the call fails with a
transport error after sleeping 1.5 then 3 seconds. -/
theorem post_query_retry_witness :
    (post_query true (fun _ => none)).1 = PostResult.transportError
    ∧ (post_query true (fun _ => none)).2 = [RETRY_BACKOFF * 1, RETRY_BACKOFF * 2] := by
  have h := post_query_retry_spec (fun _ => none)
  have h1 : (post_query true (fun _ => none)).1 = PostResult.transportError :=
    h.1.mpr ⟨rfl, rfl, rfl⟩
  exact ⟨h1, (h.2.1 h1).1⟩

/-- C4 counterexample: `upsert_product` accepts and stores a record that has
an `asin` but no `title` key at all — the store validates only the `asin`
(src/db.py lines 30-32), so no `ValidationError` is raised for a missing
title, contradicting the claim. -/
theorem upsert_missing_title_accepted :
    upsert_product 7 [] [("asin", Value.vstr "A")] =
      .ok [[("asin", Value.vstr "A"), ("updated_at", Value.vnum 7),
            ("created_at", Value.vnum 7), ("type", Value.vstr "product")]] := rfl

/-- C4 amended: the store's upsert fails exactly when the record's `asin` is
falsy — `title` is not validated there; the title check lives one layer up,
in `scrape_and_store_product`, so only the primary scrape path guarantees a
truthy title on the record it stores. -/
theorem upsert_validates_only_asin :
    (∀ (now : Int) (store : List Dict) (product : Dict),
      (upsert_product now store product).isOk = vtruthy (getV product "asin"))
    ∧ (∀ (post : Dict → Except Unit Value) (now : Int) (db : List Dict)
        (a : String) (geo : Option String) (dom : String) (db2 : List Dict) (data : Dict),
        scrape_and_store_product post now db a geo dom = .ok (db2, data) →
        vtruthy (getV data "title") = true) := by
  constructor
  · intro now store product
    unfold upsert_product
    by_cases h : vtruthy (getV product "asin") = true
    · rw [if_pos h, h]
      split <;> rfl
    · rw [if_neg h]
      have h2 : vtruthy (getV product "asin") = false := by
        cases hx : vtruthy (getV product "asin")
        · rfl
        · exact absurd hx h
      rw [h2]
      rfl
  · intro post now db a geo dom db2 data h
    unfold scrape_and_store_product at h
    cases hs : scrape_product_details post (.vstr a) (optV geo) (.vstr dom) with
    | error e => rw [hs] at h; exact absurd h (by simp)
    | ok d0 =>
      rw [hs] at h
      by_cases he : d0.isEmpty
      · simp [he] at h
      · simp only [he, Bool.false_eq_true, if_false] at h
        generalize hD : dupdate d0
          [("asin", Value.vstr a), ("geo_location", optV geo),
           ("amazon_domain", Value.vstr dom), ("type", Value.vstr "product")] = D at h
        by_cases ht : vtruthy (getV D "title") = true
        · rw [if_pos ht] at h
          cases hu : upsert_product now db D with
          | error e => rw [hu] at h; exact absurd h (by simp)
          | ok db3 =>
            rw [hu] at h
            simp only [Except.ok.injEq, Prod.mk.injEq] at h
            rw [← h.2]
            exact ht
        · rw [if_neg ht] at h
          exact absurd h (by simp)

/-- Witness for the C4 amended claim: a concrete successful primary scrape
stores a record with a truthy title, and a concrete title-less upsert
succeeds (title unchecked). -/
theorem upsert_validates_only_asin_witness :
    (upsert_product 7 [] [("asin", Value.vstr "A"), ("price", Value.vnum 3)]).isOk = true
    ∧ vtruthy (getV ((scrape_and_store_product demoPost 5 [] "B01" none
        "com").toOption.getD ([], [])).2 "title") = true := by
  constructor
  · rw [upsert_validates_only_asin.1 7 [] [("asin", Value.vstr "A"), ("price", Value.vnum 3)]]
    decide
  · exact upsert_validates_only_asin.2 demoPost 5 [] "B01" none "com"
      ((scrape_and_store_product demoPost 5 [] "B01" none "com").toOption.getD ([], [])).1
      ((scrape_and_store_product demoPost 5 [] "B01" none "com").toOption.getD ([], [])).2
      (by rfl)

/-- C5 counterexample: upserting a record that carries no `created_at` onto an
existing document resets the stored `created_at` from 5 to the call time 9 —
`data.setdefault("created_at", now)` acts on the incoming record, not the
stored one — so `created_at` is not preserved as claimed. -/
theorem upsert_resets_created_at :
    upsert_product 9 [[("asin", Value.vstr "A"), ("created_at", Value.vnum 5)]]
        [("asin", Value.vstr "A")] =
      .ok [[("asin", Value.vstr "A"), ("created_at", Value.vnum 9),
            ("updated_at", Value.vnum 9), ("type", Value.vstr "product")]]
    ∧ (Value.vnum 9 : Value) ≠ Value.vnum 5 := ⟨rfl, by decide⟩

/-- C5 amended: on an upsert over an existing asin the matched document gets
`updated_at := now` on every call, `created_at` taken from the supplied
record when present and otherwise reset to `now` (not preserved from the
store), every other supplied field overwritten field-by-field, and fields the
prepared record does not mention kept from the stored document. -/
theorem upsert_merge_semantics (now : Int) (store : List Dict) (product : Dict)
    (a : Value) (i : Nat) (hwf : DictWF product)
    (hasin : dget product "asin" = some a) (htr : vtruthy a = true)
    (doc : Dict) (hdoc : store[i]? = some doc) (hda : dget doc "asin" = some a) :
    ∃ store', upsert_product now store product = .ok store'
      ∧ store'.length = store.length
      ∧ ∃ doc', store'[i]? = some doc'
        ∧ dget doc' "updated_at" = some (.vnum now)
        ∧ dget doc' "created_at" = some ((dget product "created_at").getD (.vnum now))
        ∧ (∀ k v, k ≠ "updated_at" → dget product k = some v → dget doc' k = some v)
        ∧ (∀ k, dget product k = none → k ≠ "updated_at" → k ≠ "created_at" →
            k ≠ "type" → dget doc' k = dget doc k) := by
  have hgv : getV product "asin" = a := by rw [getV, hasin]; rfl
  have htr2 : vtruthy (getV product "asin") = true := by rw [hgv]; exact htr
  have hany : store.any (fun doc => dget doc "asin" == some (getV product "asin")) = true := by
    rw [List.any_eq_true]
    exact ⟨doc, List.getElem?_mem hdoc, by rw [hgv, hda]; simp⟩
  rw [upsert_product_eq now store product htr2, if_pos hany]
  refine ⟨_, rfl, by simp, ?_⟩
  refine ⟨dupdate doc (upsert_data now product), ?_, ?_, ?_, ?_, ?_⟩
  · rw [List.getElem?_map, hdoc]
    simp [hgv, hda]
  · exact dget_dupdate_some _ _ _ (DictWF_upsert_data now product hwf)
      (upsert_data_updated_at now product) doc
  · exact dget_dupdate_some _ _ _ (DictWF_upsert_data now product hwf)
      (upsert_data_created_at now product) doc
  · intro k v hk h
    exact dget_dupdate_some _ _ _ (DictWF_upsert_data now product hwf)
      (upsert_data_other now product k v hk h) doc
  · intro k h h1 h2 h3
    exact dget_dupdate_none doc _ k (upsert_data_none now product k h h1 h2 h3)

/-- Witness for the C5 amended claim at a concrete store and record. -/
theorem upsert_merge_semantics_witness :
    upsert_product 9 [[("asin", Value.vstr "A"), ("created_at", Value.vnum 5)]]
        [("asin", Value.vstr "A")] =
      .ok [[("asin", Value.vstr "A"), ("created_at", Value.vnum 9),
            ("updated_at", Value.vnum 9), ("type", Value.vstr "product")]]
    ∧ dget [("asin", Value.vstr "A"), ("created_at", Value.vnum 9),
        ("updated_at", Value.vnum 9), ("type", Value.vstr "product")] "updated_at"
      = some (Value.vnum 9) := by
  obtain ⟨s, h1, hl, doc', hd, hu, hc, _, _⟩ := upsert_merge_semantics 9
    [[("asin", Value.vstr "A"), ("created_at", Value.vnum 5)]]
    [("asin", Value.vstr "A")] (Value.vstr "A") 0 (by decide) rfl (by decide)
    [("asin", Value.vstr "A"), ("created_at", Value.vnum 5)] rfl rfl
  have h0 : upsert_product 9 [[("asin", Value.vstr "A"), ("created_at", Value.vnum 5)]]
      [("asin", Value.vstr "A")] =
      .ok [[("asin", Value.vstr "A"), ("created_at", Value.vnum 9),
            ("updated_at", Value.vnum 9), ("type", Value.vstr "product")]] := rfl
  refine ⟨h0, ?_⟩
  have hs : s = [[("asin", Value.vstr "A"), ("created_at", Value.vnum 9),
      ("updated_at", Value.vnum 9), ("type", Value.vstr "product")]] := by
    rw [h0] at h1
    exact (Except.ok.inj h1).symm
  subst hs
  have hdoc : doc' = [("asin", Value.vstr "A"), ("created_at", Value.vnum 9),
      ("updated_at", Value.vnum 9), ("type", Value.vstr "product")] := by
    simp at hd
    exact hd.symm
  rw [← hdoc]
  exact hu

theorem upsert_preserves_asin_unique (now : Int) (store : List Dict) (product : Dict)
    (store' : List Dict) (hwf : DictWF product)
    (h : upsert_product now store product = .ok store')
    (hu : AsinUnique store) : AsinUnique store' := by
  by_cases htr : vtruthy (getV product "asin") = true
  · rw [upsert_product_eq now store product htr] at h
    have hasin : dget product "asin" = some (getV product "asin") :=
      dget_some_of_getV_truthy product "asin" htr
    have hdata : dget (upsert_data now product) "asin" = some (getV product "asin") := by
      rw [upsert_data_asin]; exact hasin
    by_cases hany : store.any (fun doc => dget doc "asin" == some (getV product "asin")) = true
    · rw [if_pos hany] at h
      intro a
      rw [← Except.ok.inj h, List.countP_map]
      refine le_trans (le_of_eq (List.countP_congr ?_)) (hu a)
      intro d0 hd0
      by_cases hd : dget d0 "asin" = some (getV product "asin")
      · simp only [Function.comp, hd, if_pos]
        rw [dget_dupdate_some _ _ _ (DictWF_upsert_data now product hwf) hdata d0]
      · simp only [Function.comp, hd, if_neg, if_false]
    · rw [if_neg hany] at h
      intro a
      rw [← Except.ok.inj h, List.countP_append]
      by_cases ha : getV product "asin" = a
      · have hz : store.countP (fun doc => dget doc "asin" == some a) = 0 := by
          rw [List.countP_eq_zero]
          intro d0 hd0 hp
          rw [← ha] at hp
          exact absurd (List.any_eq_true.mpr ⟨d0, hd0, hp⟩) hany
        rw [hz]
        simp [List.countP_cons, hdata, ha]
      · have hz : List.countP (fun doc => dget doc "asin" == some a)
            [upsert_data now product] = 0 := by
          rw [List.countP_eq_zero]
          intro d0 hd0
          rw [List.mem_singleton] at hd0
          subst hd0
          rw [hdata]
          simp [ha]
        rw [hz]
        simpa using hu a
  · unfold upsert_product at h
    rw [if_neg htr] at h
    exact absurd h (by simp)

theorem upsert_seq_preserves : ∀ (calls : List (Int × Dict)) (store store' : List Dict),
    (∀ c ∈ calls, DictWF c.2) → AsinUnique store →
    upsert_seq calls store = .ok store' → AsinUnique store'
  | [], store, store', _, h0, h => by
    unfold upsert_seq at h
    simp only [List.foldlM_nil, except_pure_eq, Except.ok.injEq] at h
    rw [← h]
    exact h0
  | c :: rest, store, store', hwf, h0, h => by
    unfold upsert_seq at h
    rw [List.foldlM_cons] at h
    cases hc : upsert_product c.1 store c.2 with
    | error e => rw [hc] at h; exact absurd h (by simp [except_bind_error])
    | ok s1 =>
      rw [hc, except_bind_ok] at h
      exact upsert_seq_preserves rest s1 store'
        (fun d hd => hwf d (List.mem_cons_of_mem _ hd))
        (upsert_preserves_asin_unique c.1 store c.2 s1
          (hwf c (List.mem_cons_self _ _)) hc h0) h

/-- C3: starting from a store with unique asins (e.g. the empty store), any
sequence of well-formed `upsert_product` calls keeps at most one document per
asin; moreover an upsert whose asin already exists updates in place and never
grows the store. -/
theorem store_asin_unique (calls : List (Int × Dict)) (store store' : List Dict)
    (hwf : ∀ c ∈ calls, DictWF c.2) (h0 : AsinUnique store)
    (h : upsert_seq calls store = .ok store') :
    AsinUnique store'
    ∧ ∀ (now2 : Int) (product : Dict) (store2 : List Dict),
        vtruthy (getV product "asin") = true →
        store'.any (fun doc => dget doc "asin" == some (getV product "asin")) = true →
        upsert_product now2 store' product = .ok store2 →
        store2.length = store'.length := by
  refine ⟨upsert_seq_preserves calls store store' hwf h0 h, ?_⟩
  intro now2 product store2 htr hany hup
  rw [upsert_product_eq now2 store' product htr, if_pos hany] at hup
  rw [← Except.ok.inj hup, List.length_map]

/-- Witness for C3: two upserts of the same asin from the empty store leave a
single document holding that asin. -/
theorem store_asin_unique_witness :
    List.countP (fun doc => dget doc "asin" == some (Value.vstr "A"))
      [[("asin", Value.vstr "A"), ("title", Value.vstr "T2"),
        ("updated_at", Value.vnum 2), ("created_at", Value.vnum 2),
        ("type", Value.vstr "product")]] ≤ 1 := by
  have h := store_asin_unique
    [(1, [("asin", Value.vstr "A"), ("title", Value.vstr "T")]),
     (2, [("asin", Value.vstr "A"), ("title", Value.vstr "T2")])]
    []
    [[("asin", Value.vstr "A"), ("title", Value.vstr "T2"),
      ("updated_at", Value.vnum 2), ("created_at", Value.vnum 2),
      ("type", Value.vstr "product")]]
    (by decide) (fun a => by simp) rfl
  exact h.1 (Value.vstr "A")

/-- C6: the batch fetcher returns exactly the records of the identifiers
whose detail fetch succeeded, in order: a failing identifier is skipped, the
rest are still attempted, and no exception escapes (the function is total). -/
theorem batch_fetch_isolates_failures (post : Dict → Except Unit Value)
    (geoV domV : Value) (asins : List Value) :
    scrape_multiple_products post geoV domV asins =
      asins.filterMap (fun a => (scrape_product_details post a geoV domV).toOption) :=
  scrape_multiple_eq_filterMap post geoV domV asins

/-- C1: under the external detail contract (a fetched record carries the
requested identifier or no truthy identifier), every successful discovery run
returns records with pairwise distinct asins, at most `limit` of them —
whatever iteration order Python's set produces. -/
theorem discovery_returns_nodup_bounded
    (choiceS : List String → List String) (choiceV : List Value → List Value)
    (post : Dict → Except Unit Value) (now : Int) (db : List Dict) (pa : String)
    (dom geo : Option String) (pages limit : Nat) (db2 stored : List Dict)
    (hch : PySetChoice choiceV) (hpf : DetailsFaithful post)
    (h : fetch_and_store_competitors choiceS choiceV post now db pa dom geo pages limit
      = .ok (db2, stored)) :
    (stored.map (fun d => getV d "asin")).Nodup ∧ stored.length ≤ limit := by
  obtain ⟨st, hr, hdb2, hstored⟩ := fetch_and_store_ok_inv h
  obtain ⟨hc, hf, hs, hst⟩ := discovery_run_ok_shape hr
  have hfetched : st.fetched.Nodup := by
    rw [hf, hc]
    exact List.Nodup.sublist (List.take_sublist _ _) (hch _).1
  constructor
  · rw [← hstored, discovery_stored_asins hr]
    refine List.Nodup.filterMap ?_ hfetched
    intro a a2 b hb hb2
    have key : ∀ x b2, (((scrape_product_details post x st.search_geo
        st.search_domain).toOption).filter (fun p => vtruthy (getV p "asin"))).map
          (fun p => getV p "asin") = some b2 → b2 = x := by
      intro x b2 hx
      cases hsc : scrape_product_details post x st.search_geo st.search_domain with
      | error e => rw [hsc] at hx; simp [Except.toOption] at hx
      | ok p =>
        rw [hsc] at hx
        by_cases ht : vtruthy (getV p "asin") = true
        · simp [Except.toOption, Option.filter, ht] at hx
          rcases hpf x st.search_geo st.search_domain p hsc with hpa | hpa
          · rw [← hx, hpa]
          · rw [hpa] at ht; exact absurd ht (by simp)
        · simp [Except.toOption, Option.filter, ht] at hx
    exact (key a b (Option.mem_def.mp hb)).symm.trans (key a2 b (Option.mem_def.mp hb2))
  · rw [← hstored, hst, List.length_map]
    calc (st.scraped.filter (fun p => vtruthy (getV p "asin"))).length
        ≤ st.scraped.length := List.length_filter_le _ _
      _ ≤ st.fetched.length := by
          rw [hs, scrape_multiple_eq_filterMap]
          exact List.length_filterMap_le _ _
      _ ≤ limit := by rw [hf]; exact List.length_take_le _ _

/-- Witness for C1: a concrete run against the demo oracle with limit 2. -/
theorem discovery_returns_nodup_bounded_witness :
    (((fetch_and_store_competitors pySetList pySetList demoPost 3 demoDb "P1"
        none none 1 2).toOption.getD ([], [])).2.map (fun d => getV d "asin")).Nodup
    ∧ ((fetch_and_store_competitors pySetList pySetList demoPost 3 demoDb "P1"
        none none 1 2).toOption.getD ([], [])).2.length ≤ 2 :=
  discovery_returns_nodup_bounded pySetList pySetList demoPost 3 demoDb "P1"
    none none 1 2
    ((fetch_and_store_competitors pySetList pySetList demoPost 3 demoDb "P1"
        none none 1 2).toOption.getD ([], [])).1
    ((fetch_and_store_competitors pySetList pySetList demoPost 3 demoDb "P1"
        none none 1 2).toOption.getD ([], [])).2
    pySetChoice_pySetList demoPost_faithful (by rfl)

/-- C2: a candidate hit equal to the parent asin is excluded before detail
fetching (the parent is never in the fetched list), and — under the external
detail contract — no returned record's asin equals the parent's. -/
theorem discovery_excludes_parent_asin
    (choiceS : List String → List String) (choiceV : List Value → List Value)
    (post : Dict → Except Unit Value) (now : Int) (db : List Dict) (pa : String)
    (dom geo : Option String) (pages limit : Nat) (st : RunState)
    (hch : PySetChoice choiceV) (hpf : DetailsFaithful post)
    (h : discovery_run choiceS choiceV post now db pa dom geo pages limit = .ok st) :
    Value.vstr pa ∉ st.fetched
    ∧ ∀ d ∈ st.stored, getV d "asin" ≠ Value.vstr pa := by
  obtain ⟨hc, hf, hs, hst⟩ := discovery_run_ok_shape h
  have hnot : Value.vstr pa ∉ st.fetched := by
    intro hmem
    rw [hf] at hmem
    have hm2 : Value.vstr pa ∈ st.candidates := List.mem_of_mem_take hmem
    rw [hc] at hm2
    have hm3 := ((hch _).2 (Value.vstr pa)).mp hm2
    rw [List.mem_map] at hm3
    obtain ⟨r, hr, hra⟩ := hm3
    rw [candidate_filter, List.mem_filter] at hr
    have hcond := hr.2
    rw [hra] at hcond
    simp at hcond
  refine ⟨hnot, ?_⟩
  intro d hd heq
  have hmap : getV d "asin" ∈ st.stored.map (fun d => getV d "asin") :=
    List.mem_map_of_mem _ hd
  rw [discovery_stored_asins h, List.mem_filterMap] at hmap
  obtain ⟨a, ha, hFa⟩ := hmap
  cases hsc : scrape_product_details post a st.search_geo st.search_domain with
  | error e => rw [hsc] at hFa; simp [Except.toOption] at hFa
  | ok p =>
    rw [hsc] at hFa
    by_cases ht : vtruthy (getV p "asin") = true
    · have hFa2 : getV p "asin" = getV d "asin" := by
        simpa [Except.toOption, Option.filter, ht] using hFa
      rcases hpf a st.search_geo st.search_domain p hsc with hpa | hpa
      · have haeq : a = Value.vstr pa := by rw [← hpa, hFa2, heq]
        rw [haeq] at ha
        exact hnot ha
      · rw [hpa] at ht
        exact absurd ht (by simp)
    · simp [Except.toOption, Option.filter, ht] at hFa

/-- Witness for C2: in the concrete demo run neither the fetched candidate
list nor the stored records mention the parent identifier P1. -/
theorem discovery_excludes_parent_asin_witness :
    Value.vstr "P1" ∉ ((discovery_run pySetList pySetList demoPost 3 demoDb "P1"
        none none 1 2).toOption.getD runStateDefault).fetched :=
  (discovery_excludes_parent_asin pySetList pySetList demoPost 3 demoDb "P1"
    none none 1 2
    ((discovery_run pySetList pySetList demoPost 3 demoDb "P1"
        none none 1 2).toOption.getD runStateDefault)
    pySetChoice_pySetList demoPost_faithful (by rfl)).1

/-- C8 counterexample: a concrete run in which the aggregator's first-seen
candidate order is C1, C2, C3 and `limit = 1`, yet — under the admissible
reversed set-iteration order `revChoiceV` — the record fetched and stored is
C3, not C1: the candidate sequence handed to the fetcher is
`list({...})`, whose order is not first-seen. -/
theorem candidate_order_counterexample :
    PySetChoice revChoiceV
    ∧ ((discovery_run pySetList revChoiceV demoPost 3 demoDb "P1" none none 1 1).map
        (fun st => ((candidate_filter "P1" st.all_results).map (fun r => getV r "asin"),
                    st.stored.map (fun d => getV d "asin"))))
      = .ok ([Value.vstr "C1", Value.vstr "C2", Value.vstr "C3"], [Value.vstr "C3"])
    ∧ (Value.vstr "C3" : Value) ≠ Value.vstr "C1" := by
  refine ⟨pySetChoice_reverse, by rfl, by decide⟩

/-- C8 amended: the candidate sequence handed to the batch fetcher is
duplicate-free and contains exactly the asins of the filtered hits (first
occurrence wins inside each search pass), truncated to `limit` — but its
order is an unspecified set-iteration order, not first-seen order. -/
theorem candidate_set_unordered_spec
    (choiceS : List String → List String) (choiceV : List Value → List Value)
    (post : Dict → Except Unit Value) (now : Int) (db : List Dict) (pa : String)
    (dom geo : Option String) (pages limit : Nat) (st : RunState)
    (hch : PySetChoice choiceV)
    (h : discovery_run choiceS choiceV post now db pa dom geo pages limit = .ok st) :
    st.candidates.Nodup
    ∧ (∀ a, a ∈ st.candidates ↔
        a ∈ (candidate_filter pa st.all_results).map (fun r => getV r "asin"))
    ∧ st.fetched = st.candidates.take limit
    ∧ st.fetched.length ≤ limit := by
  obtain ⟨hc, hf, _, _⟩ := discovery_run_ok_shape h
  refine ⟨hc ▸ (hch _).1, fun a => hc ▸ (hch _).2 a, hf, ?_⟩
  rw [hf]
  exact List.length_take_le _ _

/-- Witness for the C8 amended claim on the concrete demo run with limit 1. -/
theorem candidate_set_unordered_spec_witness :
    ((discovery_run pySetList pySetList demoPost 3 demoDb "P1" none none 1 1).toOption.getD
      runStateDefault).candidates.Nodup
    ∧ ((discovery_run pySetList pySetList demoPost 3 demoDb "P1" none none 1 1).toOption.getD
      runStateDefault).fetched.length ≤ 1 := by
  have h := candidate_set_unordered_spec pySetList pySetList demoPost 3 demoDb "P1"
    none none 1 1
    ((discovery_run pySetList pySetList demoPost 3 demoDb "P1" none none 1 1).toOption.getD
      runStateDefault)
    pySetChoice_pySetList (by rfl)
  exact ⟨h.1, h.2.2.2⟩

end Scraping
